import Mathlib

/-!
# Verification of the expo_assistant speech front-end

Shallow embedding of `src/vad.py` (silence trimming and speech-segment
detection) and `src/asr.py` (tiered transcription with a fallback chain)
from the `ai_programming_juni` repository, together with theorems settling
the specification claims about them.

Modelling conventions:
* Byte strings are `List Nat` (one entry per byte value).
* A WAV file is modelled by its decoded header fields plus PCM payload
  (`Wav`); the byte length of the canonical encoding produced by Python's
  `wave` module is `44 + pcm.length` (44-byte standard header).
* Python floats are modelled by exact rationals `ℚ`; `int(a / b)` on
  non-negative integers is `Nat` floor division.
* The per-frame speech classifier (`webrtcvad.Vad.is_speech`, an external
  capability) is a parameter.  A classifier that may raise a Python
  exception has type `Bytes → Except String Bool`; totally defined
  classifiers are lifted with `liftC`.
* Python exceptions are values.  `Except String α` models a call that can
  raise (the `String` is the exception's tag); `PyExc` additionally records
  the chain of `__cause__`/`__context__` links that Python's traceback
  machinery follows (the cause when `raise ... from` was used, otherwise
  the implicit context, i.e. the exception being handled when the new one
  was raised).
-/

namespace ExpoAssistant

abbrev Bytes := List Nat

/-- Decoded WAV data: sample rate, channel count, sample width (bytes per
sample) and the PCM payload, mirroring `_read_wav_pcm` in `src/vad.py`. -/
structure Wav where
  sr : Nat
  ch : Nat
  sw : Nat
  pcm : Bytes
deriving Repr, DecidableEq

/-- Byte length of the canonical WAV encoding produced by Python's `wave`
module: a 44-byte header followed by the PCM payload. -/
def Wav.byteLength (w : Wav) : Nat := 44 + w.pcm.length

/-- `_is_wav_16k_mono_16bit` from `src/vad.py`: the VAD precondition
(mono, 16 kHz, 16-bit samples). -/
def isWav16kMono16bit (w : Wav) : Bool :=
  w.ch == 1 && w.sr == 16000 && w.sw == 2

/-- `_write_wav_pcm` from `src/vad.py`: re-wrap a PCM payload with the
given header fields. -/
def writeWavPcm (pcm : Bytes) (sr ch sw : Nat) : Wav :=
  ⟨sr, ch, sw, pcm⟩

/-- Frame byte length used by `_split_frames`:
`int(sr * frame_ms / 1000) * 2` (16-bit mono). -/
def frameBytesOf (sr frame_ms : Nat) : Nat :=
  (sr * frame_ms / 1000) * 2

/-- Fuel-driven chunking loop behind `_split_frames`: take successive
chunks of `fb` bytes, keeping only complete chunks (the trailing partial
chunk is discarded).  The fuel only bounds the iteration count; it is
always called with fuel `pcm.length + 1`, which is enough because every
iteration consumes at least one byte. -/
def chunkFramesAux (fb : Nat) : Nat → Bytes → List Bytes
  | 0, _ => []
  | fuel + 1, pcm =>
    if 0 < fb ∧ fb ≤ pcm.length then
      pcm.take fb :: chunkFramesAux fb fuel (pcm.drop fb)
    else []

/-- `_split_frames` from `src/vad.py` (specialised to the chunk length):
split `pcm` into complete `fb`-byte frames, dropping the remainder. -/
def chunkFrames (fb : Nat) (pcm : Bytes) : List Bytes :=
  chunkFramesAux fb (pcm.length + 1) pcm

/-- `_split_frames(pcm, sr, frame_ms)` from `src/vad.py`. -/
def split_frames (pcm : Bytes) (sr frame_ms : Nat) : List Bytes :=
  chunkFrames (frameBytesOf sr frame_ms) pcm

/-- A per-frame speech classifier that may raise (models
`webrtcvad.Vad(aggressiveness).is_speech(frame, sr)`; the aggressiveness
level is folded into the classifier value). -/
abbrev Classifier := Bytes → Except String Bool

/-- Lift a total (never-raising) classifier. -/
def liftC (cls : Bytes → Bool) : Classifier := fun fr => Except.ok (cls fr)

/-- The voiced-byte accumulation loop of `trim_silence`, for a total
classifier: `for fr in frames: if is_speech(fr): voiced.extend(fr)`. -/
def voicedFold (cls : Bytes → Bool) (frames : List Bytes) : Bytes :=
  frames.foldl (fun acc fr => if cls fr then acc ++ fr else acc) []

/-- `trim_silence(wav_bytes, aggressiveness, frame_ms)` from `src/vad.py`,
with `webrtcvad` available (the classifier parameter).  Faithful to the
source: a non-precondition input is returned unchanged; frames are
classified in order and every classifier exception propagates (there is no
handler inside the function); the comparison
`len(voiced) < len(pcm) * 0.1` is modelled exactly as
`10 * len(voiced) < len(pcm)`. -/
def trim_silence (vad : Classifier) (w : Wav) (frame_ms : Nat) :
    Except String Wav :=
  if isWav16kMono16bit w then do
    let frames := split_frames w.pcm w.sr frame_ms
    let voiced ← frames.foldlM
      (fun acc fr => do
        let b ← vad fr
        pure (if b then acc ++ fr else acc)) ([] : Bytes)
    if 10 * voiced.length < w.pcm.length then
      pure w
    else
      pure (writeWavPcm voiced w.sr w.ch w.sw)
  else
    Except.ok w

/-! ## Segment detection (`detect_segments` in `src/vad.py`) -/

/-- Mutable state of the segment-detection loop in `detect_segments`:
the accumulated segment list (in seconds), the `in_speech` flag, the
index of the frame that started the current segment, and the count of
consecutive silence frames seen while in speech. -/
structure DetState where
  segs : List (ℚ × ℚ)
  in_speech : Bool
  seg_start : Nat
  silence_cnt : Nat
deriving Repr, DecidableEq

/-- One iteration of the `for i, fr in enumerate(frames)` loop body of
`detect_segments`, given the classification `is_sp` of frame `i` and the
silence-frame threshold `msf` (`max_silence_frames` in the source). -/
def detectStep (frame_ms msf : Nat) (st : DetState) (i : Nat) (is_sp : Bool) :
    DetState :=
  if is_sp then
    if st.in_speech then
      { st with silence_cnt := 0 }
    else
      { st with in_speech := true, seg_start := i, silence_cnt := 0 }
  else
    if st.in_speech then
      let cnt := st.silence_cnt + 1
      if msf ≤ cnt then
        let start_sec : ℚ := (st.seg_start : ℚ) * frame_ms / 1000
        let end_sec : ℚ := ((i : ℚ) - (cnt : ℚ) + 1) * frame_ms / 1000
        { segs := st.segs ++ (if start_sec < end_sec then [(start_sec, end_sec)] else []),
          in_speech := false, seg_start := st.seg_start, silence_cnt := 0 }
      else
        { st with silence_cnt := cnt }
    else
      st

/-- The whole classification loop of `detect_segments`, run over the frame
labels starting at index `i`. -/
def detectLoop (frame_ms msf : Nat) : Nat → DetState → List Bool → DetState
  | _, st, [] => st
  | i, st, b :: rest => detectLoop frame_ms msf (i + 1) (detectStep frame_ms msf st i b) rest

/-- The trailing-segment handling after the loop of `detect_segments`
(`if in_speech: ...` with the total frame count `n` as end index). -/
def detectFinish (frame_ms : Nat) (n : Nat) (st : DetState) : DetState :=
  if st.in_speech then
    let start_sec : ℚ := (st.seg_start : ℚ) * frame_ms / 1000
    let end_sec : ℚ := (n : ℚ) * frame_ms / 1000
    { st with segs := st.segs ++ (if start_sec < end_sec then [(start_sec, end_sec)] else []) }
  else st

/-- Whole-clip duration used by the non-precondition branch of
`detect_segments`: `wf.getnframes() / float(wf.getframerate())`, with the
`wave` frame count `pcm.length / (ch * sw)`; a division by zero is caught
by the surrounding `except`, which sets the duration to `0.0`. -/
def wavDuration (w : Wav) : ℚ :=
  if w.sr = 0 ∨ w.ch * w.sw = 0 then 0
  else ((w.pcm.length / (w.ch * w.sw) : Nat) : ℚ) / (w.sr : ℚ)

/-- Core of `detect_segments` from `src/vad.py`, parameterised by the
silence-frame threshold `msf` so that the floor-based threshold of the
source and the ceil-based threshold written in the specification can be
compared.  Faithful to the source otherwise: classifier exceptions
propagate; when the loop produced no segment, the fallback whole-clip
segment uses `len(pcm) / 2 / sr`. -/
def detectCore (vad : Classifier) (w : Wav) (frame_ms msf : Nat) :
    Except String (List (ℚ × ℚ)) :=
  if isWav16kMono16bit w then do
    let frames := split_frames w.pcm w.sr frame_ms
    let labels ← frames.mapM vad
    let st := detectFinish frame_ms frames.length
      (detectLoop frame_ms msf 0 ⟨[], false, 0, 0⟩ labels)
    if st.segs = [] then
      pure [(0, ((w.pcm.length : ℚ) / 2) / (w.sr : ℚ))]
    else
      pure st.segs
  else
    Except.ok [(0, max (wavDuration w) 0)]

/-- `detect_segments(wav_bytes, aggressiveness, frame_ms, max_silence_ms)`
from `src/vad.py`, with `webrtcvad` available.  The threshold is
`max(1, int(max_silence_ms / frame_ms))`; Python's `int()` of a
non-negative float quotient is floor division. -/
def detect_segments (vad : Classifier) (w : Wav) (frame_ms max_silence_ms : Nat) :
    Except String (List (ℚ × ℚ)) :=
  detectCore vad w frame_ms (max 1 (max_silence_ms / frame_ms))

/-- Ceiling division on `Nat`. -/
def ceilDiv (a b : Nat) : Nat := (a + b - 1) / b

/-- Modelled from the spec: the variant of `detect_segments` whose
silence-frame threshold is `ceil(max_silence_ms / frame_ms)` (minimum 1),
as §4.5 of the specification words it; everything else is the source
algorithm.  Used only to compare the spec's threshold with the source's. -/
def detect_segments_ceilSpec (vad : Classifier) (w : Wav) (frame_ms max_silence_ms : Nat) :
    Except String (List (ℚ × ℚ)) :=
  detectCore vad w frame_ms (max 1 (ceilDiv max_silence_ms frame_ms))

/-- A segment list is well-formed: every segment has `start < end`, and
consecutive segments satisfy `end₁ ≤ start₂` (hence the list is sorted
ascending by start and non-overlapping). -/
def segsSorted : List (ℚ × ℚ) → Bool
  | [] => true
  | [p] => decide (p.1 < p.2)
  | p :: q :: rest => decide (p.1 < p.2) && decide (p.2 ≤ q.1) && segsSorted (q :: rest)

/-! ## Transcription (`src/asr.py`)

`transcribe_bytes` resolves the model parameters, asks the model registry
for a model instance and transcribes; on failure it walks the static
fallback dict `{"small": "base", "base": "tiny"}`, retrying with the beam
size halved (floored at 1) and finally raising
`RuntimeError(...) from e`.  The registry call and the model invocation
are an opaque external capability, modelled by `AsrEnv.attempt`; the VAD
preprocessing step and the temp-file bookkeeping neither raise out of the
function nor affect its control flow, so they are not modelled. -/

/-- A transcript span as returned by the model capability
(`model.transcribe`): timestamps, text and the optional
`no_speech_prob` attribute. -/
structure ModelSpan where
  start : ℚ
  stop : ℚ
  text : String
  no_speech_prob : Option ℚ
deriving Repr, DecidableEq

/-- The `(segments, info)` pair returned by the model capability:
the span list and the detected language (`info.language`, possibly
absent). -/
structure ModelOutput where
  spans : List ModelSpan
  language : Option String
deriving Repr, DecidableEq

/-- One entry of the `"segments"` list of the result dict. -/
structure AsrSegment where
  idx : Nat
  start : ℚ
  stop : ℚ
  text : String
deriving Repr, DecidableEq

/-- The dict returned by `_do_transcribe_with_model` (and hence by
`transcribe_bytes`): keys `text`, `segments`, `lang`, `avg_conf`. -/
structure AsrResult where
  text : String
  segments : List AsrSegment
  lang : String
  avg_conf : ℚ
deriving Repr, DecidableEq

/-- Python's `a or b` on an optional string: `a` when present and
non-empty (truthy), else `b`. -/
def pyOrStr (a : Option String) (b : String) : String :=
  match a with
  | some s => if s = "" then b else s
  | none => b

/-- `max(0.0, min(1.0, x))`. -/
def clamp01 (x : ℚ) : ℚ := max 0 (min 1 x)

/-- The per-span confidence list of `_do_transcribe_with_model`:
`max(0.0, min(1.0, 1.0 - p))` for every span whose `no_speech_prob` is
present. -/
def confList (spans : List ModelSpan) : List ℚ :=
  spans.filterMap (fun s => s.no_speech_prob.map (fun p => clamp01 (1 - p)))

/-- Result assembly of `_do_transcribe_with_model` in `src/asr.py`, given
the model's output (the transcription call itself is part of
`AsrEnv.attempt`): concatenated trimmed text, indexed segments, language
resolution `info.language or (lang_hint or "unknown")`, and the average
confidence (`0.0` when no span reports a probability). -/
def do_transcribe_with_model (out : ModelOutput) (lang_hint : Option String) :
    AsrResult :=
  let seg_list := out.spans
  let text := (String.join (seg_list.map (fun s => s.text))).trim
  let confs := confList seg_list
  let avg_conf : ℚ := if confs.length = 0 then 0 else confs.sum / (confs.length : ℚ)
  let lang := pyOrStr out.language (pyOrStr lang_hint "unknown")
  { text := text
    segments := (List.range seg_list.length).zipWith
      (fun i s => ⟨i, s.start, s.stop, s.text⟩) seg_list
    lang := lang
    avg_conf := avg_conf }

/-- A Python exception value together with the chain of underlying causes
that the traceback follows: the explicit `__cause__` when raised with
`raise ... from`, otherwise the implicit `__context__` (the exception
being handled at the moment the new one was raised). -/
inductive PyExc where
  | base (tag : String)
  | chained (tag : String) (cause : PyExc)
deriving Repr, DecidableEq

/-- Number of underlying causes below an exception (the length of its
cause chain, the exception itself excluded). -/
def PyExc.chainLength : PyExc → Nat
  | .base _ => 0
  | .chained _ e => 1 + e.chainLength

/-- Observable side effects of `transcribe_bytes`: the registry lookup
`get_registry()` and each model-instance request
`reg.get_asr_model(model_name=..., ...)` with the beam size the
subsequent transcription call would use. -/
inductive AsrEvent where
  | registryLookup
  | modelRequest (name : String) (beam : Nat)
deriving Repr, DecidableEq

/-- The external collaborators of `transcribe_bytes`: the configured
default model name (`stt_cfg.model_name`) and the combined
registry-lookup-plus-transcription attempt for a tier.  `attempt name
beam` is `reg.get_asr_model(model_name=name, ...)` followed by
`model.transcribe(...)` with that beam size; either step may raise, which
the source catches uniformly, so a single `Except` models both. -/
structure AsrEnv where
  defaultModelName : String
  attempt : String → Nat → Except String ModelOutput

/-- The static fallback dict `{"small": "base", "base": "tiny"}` of
`transcribe_bytes`, as the partial successor map the `while cur in
fallback` loop reads. -/
def fallbackNext (cur : String) : Option String :=
  if cur = "small" then some "base"
  else if cur = "base" then some "tiny"
  else none

/-- The `while cur in fallback` loop of `transcribe_bytes`.  `handled` is
the exception being handled by the enclosing `except Exception as e`
block: every exception raised by a fallback attempt gets it as implicit
`__context__` (CPython restores the handler's exception state when the
inner `except` block exits, so the context is always the first failure,
not the previous fallback's).  `e` is the loop variable `e`; on exit the
source raises `RuntimeError(...) from e`.  The fuel only bounds the
iteration count and is always called with fuel 3, enough to walk the
two-entry fallback dict from any starting name. -/
def fallbackLoop (env : AsrEnv) (lang_hint : Option String) (handled : PyExc)
    (beam : Nat) :
    Nat → String → PyExc → Except PyExc AsrResult × List AsrEvent
  | fuel, cur, e =>
    match fallbackNext cur with
    | none => (Except.error (PyExc.chained "RuntimeError" e), [])
    | some nxt =>
      match fuel with
      | 0 => (Except.error (PyExc.base "FuelExhausted"), [])
      | fuel2 + 1 =>
        let b2 := max 1 (beam / 2)
        let ev := AsrEvent.modelRequest nxt b2
        match env.attempt nxt b2 with
        | Except.ok out => (Except.ok (do_transcribe_with_model out lang_hint), [ev])
        | Except.error tag =>
          let r := fallbackLoop env lang_hint handled beam fuel2 nxt (PyExc.chained tag handled)
          (r.1, ev :: r.2)

/-- `transcribe_bytes` from `src/asr.py`, over the resolved call
parameters: `audio_bytes`, the language hint, the resolved beam size, and
the model name override (`(override or {}).get("model_name",
stt_cfg.model_name)`).  The empty-input check comes before the
`get_registry()` call; a first-attempt failure enters the fallback loop;
exhaustion raises `RuntimeError(f"[ASR] STT 실패: {e}") from e`.  The
second component records the registry lookup and every model-instance
request in order. -/
def transcribe_bytes (env : AsrEnv) (audio_bytes : Bytes)
    (lang_hint : Option String) (beam : Nat) (overrideName : Option String) :
    Except PyExc AsrResult × List AsrEvent :=
  if audio_bytes.isEmpty then
    (Except.error (PyExc.base "ValueError"), [])
  else
    let name := overrideName.getD env.defaultModelName
    match env.attempt name beam with
    | Except.ok out =>
      (Except.ok (do_transcribe_with_model out lang_hint),
       [AsrEvent.registryLookup, AsrEvent.modelRequest name beam])
    | Except.error tag =>
      let e1 := PyExc.base tag
      let r := fallbackLoop env lang_hint e1 beam 3 name e1
      (r.1, AsrEvent.registryLookup :: AsrEvent.modelRequest name beam :: r.2)

/-- Number of model-instance requests in an event trace. -/
def countModelRequests (evs : List AsrEvent) : Nat :=
  (evs.filter (fun ev => match ev with
    | AsrEvent.modelRequest _ _ => true
    | _ => false)).length

/-! ## Auxiliary predicates and spec-worded definitions used by the claims -/

/-- Modelled from the spec (§4.6 step 5): aggregate confidence is the
arithmetic mean, over all spans that report a non-speech probability, of
`1 − clamp(probability, 0, 1)`; when no span reports a probability it is
exactly `0.0`. -/
def specAggConf (spans : List ModelSpan) : ℚ :=
  let ps := spans.filterMap (fun s => s.no_speech_prob)
  if ps = [] then 0 else (ps.map (fun p => 1 - clamp01 p)).sum / (ps.length : ℚ)

/-- Every segment in the list ends no later than `b`. -/
def SegsLE (b : ℚ) (l : List (ℚ × ℚ)) : Prop := ∀ p ∈ l, p.2 ≤ b

/-- Invariant of the `detect_segments` loop after processing `i` frames:
the accumulated list is well-formed; while in speech every accumulated
segment ends no later than the pending segment's start time, and the
pending start index is a frame that has already been processed; while out
of speech every accumulated segment ends no later than the time of the
next frame. -/
def DetInv (fm : Nat) (i : Nat) (st : DetState) : Prop :=
  segsSorted st.segs = true ∧
  (st.in_speech = true →
    SegsLE ((st.seg_start : ℚ) * fm / 1000) st.segs ∧ st.seg_start < i) ∧
  (st.in_speech = false → SegsLE ((i : ℚ) * fm / 1000) st.segs)

/-- A 64-byte PCM frame (one 2 ms frame at 16 kHz) whose first byte is
`b`; used with the classifier that labels a frame as speech exactly when
its first byte is 1. -/
def markedFrame (b : Nat) : Bytes := b :: List.replicate 63 0

/-- Three-frame PCM payload: speech, silence, speech (under the
first-byte classifier). -/
def spNsSpPcm : Bytes := markedFrame 1 ++ markedFrame 0 ++ markedFrame 1

/-- Classifier labelling a frame as speech exactly when its first byte
is 1. -/
def headCls : Bytes → Bool := fun fr => fr.headD 0 == 1

/-- A 32-byte PCM frame (one 1 ms frame at 16 kHz) whose first byte is
`b`. -/
def frame32 (b : Nat) : Bytes := b :: List.replicate 31 0

/-- A classifier that classifies a frame normally when its first byte is
1 and raises on any other frame; used to exhibit an exception on a
non-initial frame. -/
def fussyCls : Classifier := fun fr =>
  if fr.headD 0 == 1 then Except.ok true else Except.error "boom"

/-! ## Helper lemmas -/

theorem ok_bind {ε α β : Type} (a : α) (f : α → Except ε β) :
    (Except.ok a >>= f : Except ε β) = f a := rfl

theorem foldlM_liftC (cls : Bytes → Bool) :
    ∀ (l : List Bytes) (a : Bytes),
      (l.foldlM (fun acc fr => do
        let b ← liftC cls fr
        pure (if b then acc ++ fr else acc)) a : Except String Bytes)
      = Except.ok (l.foldl (fun acc fr => if cls fr then acc ++ fr else acc) a) := by
  intro l
  induction l with
  | nil => intro a; rfl
  | cons x xs ih =>
    intro a
    simp only [List.foldlM_cons, List.foldl_cons, liftC, ok_bind]
    exact ih _

theorem mapM_liftC (cls : Bytes → Bool) :
    ∀ l : List Bytes, (l.mapM (liftC cls) : Except String (List Bool)) = Except.ok (l.map cls) := by
  intro l
  induction l with
  | nil => rfl
  | cons x xs ih => simp only [List.mapM_cons, List.map_cons, liftC, ok_bind, ih]; rfl

/-- `trim_silence` with a total classifier, rewritten as the pure
computation it performs. -/
theorem trim_silence_liftC (cls : Bytes → Bool) (w : Wav) (fm : Nat) :
    trim_silence (liftC cls) w fm
      = if isWav16kMono16bit w then
          (if 10 * (voicedFold cls (split_frames w.pcm w.sr fm)).length < w.pcm.length
           then Except.ok w
           else Except.ok (writeWavPcm (voicedFold cls (split_frames w.pcm w.sr fm)) w.sr w.ch w.sw))
        else Except.ok w := by
  unfold trim_silence voicedFold
  split
  · simp only [foldlM_liftC, ok_bind]
    rfl
  · rfl

/-- `detectCore` with a total classifier, rewritten as the pure
computation it performs. -/
theorem detectCore_liftC (cls : Bytes → Bool) (w : Wav) (fm msf : Nat) :
    detectCore (liftC cls) w fm msf
      = if isWav16kMono16bit w then
          (if (detectFinish fm (split_frames w.pcm w.sr fm).length
                (detectLoop fm msf 0 ⟨[], false, 0, 0⟩ ((split_frames w.pcm w.sr fm).map cls))).segs = [] then
            Except.ok [(0, ((w.pcm.length : ℚ) / 2) / (w.sr : ℚ))]
           else
            Except.ok (detectFinish fm (split_frames w.pcm w.sr fm).length
                (detectLoop fm msf 0 ⟨[], false, 0, 0⟩ ((split_frames w.pcm w.sr fm).map cls))).segs)
        else Except.ok [(0, max (wavDuration w) 0)] := by
  unfold detectCore
  split
  · simp only [mapM_liftC, ok_bind]
    rfl
  · rfl

theorem clamp01_one_sub (p : ℚ) : clamp01 (1 - p) = 1 - clamp01 p := by
  unfold clamp01
  simp only [max_def, min_def]
  split_ifs <;> linarith

theorem confList_eq (spans : List ModelSpan) :
    confList spans
      = (spans.filterMap (fun s => s.no_speech_prob)).map (fun p => clamp01 (1 - p)) := by
  unfold confList
  rw [List.map_filterMap]

/-! ## C8 — empty input is rejected before any other step -/

/-- C8: calling `transcribe_bytes` with an empty byte buffer raises the
precondition error (`ValueError` in the source) before anything else
happens: the observable event trace is empty, so in particular no
model-registry lookup and no model-instance request occur. -/
theorem transcribe_bytes_empty_raises_first
    (env : AsrEnv) (hint : Option String) (beam : Nat) (ov : Option String) :
    transcribe_bytes env [] hint beam ov
      = (Except.error (PyExc.base "ValueError"), []) := rfl

/-! ## C7 — aggregate confidence -/

/-- C7: the aggregate confidence equals the arithmetic mean, over exactly
those spans reporting a non-speech probability, of
`1 − clamp(probability, 0, 1)` (the source computes the equal value
`clamp(1 − p, 0, 1)` per span); when no span reports a probability it is
exactly 0; and the two-span example with probabilities 1/10 and 3/10
yields 4/5. -/
theorem avg_conf_is_mean_of_complements :
    (∀ (out : ModelOutput) (hint : Option String),
        (do_transcribe_with_model out hint).avg_conf = specAggConf out.spans) ∧
    (∀ (out : ModelOutput) (hint : Option String),
        out.spans.filterMap (fun s => s.no_speech_prob) = [] →
        (do_transcribe_with_model out hint).avg_conf = 0) ∧
    (do_transcribe_with_model
        ⟨[⟨0, 1, "a", some (1/10)⟩, ⟨1, 2, "b", some (3/10)⟩], some "ko"⟩
        (some "ko")).avg_conf = 4/5 := by
  have key : ∀ (out : ModelOutput) (hint : Option String),
      (do_transcribe_with_model out hint).avg_conf = specAggConf out.spans := by
    intro out hint
    show (if (confList out.spans).length = 0 then (0 : ℚ)
          else (confList out.spans).sum / ((confList out.spans).length : ℚ))
        = specAggConf out.spans
    rw [confList_eq]
    unfold specAggConf
    have hmap : (out.spans.filterMap (fun s => s.no_speech_prob)).map (fun p => clamp01 (1 - p))
        = (out.spans.filterMap (fun s => s.no_speech_prob)).map (fun p => 1 - clamp01 p) :=
      List.map_congr_left (fun p _ => clamp01_one_sub p)
    rw [hmap]
    simp [List.length_eq_zero]
  refine ⟨key, ?_, ?_⟩
  · intro out hint hnone
    rw [key out hint]
    unfold specAggConf
    rw [hnone]
    rfl
  · rw [key]
    show specAggConf [⟨0, 1, "a", some (1/10)⟩, ⟨1, 2, "b", some (3/10)⟩] = 4/5
    unfold specAggConf
    norm_num [List.filterMap_cons, clamp01]
    exact List.cons_ne_nil _ _

/-- Witness for C7's hypothesis-bearing conjunct: a transcript whose only
span reports no probability has aggregate confidence exactly 0. -/
theorem avg_conf_is_mean_of_complements_witness :
    (do_transcribe_with_model ⟨[⟨0, 1, "x", none⟩], some "en"⟩ (some "ko")).avg_conf = 0 :=
  avg_conf_is_mean_of_complements.2.1 ⟨[⟨0, 1, "x", none⟩], some "en"⟩ (some "ko") (by decide)

/-! ## C6 — the 10% over-trim guard -/

/-- C6: for a clip satisfying the VAD precondition, when the concatenated
speech-labeled bytes are shorter than 10% of the PCM payload
(`len(voiced) < len(pcm) * 0.1`, i.e. `10·len(voiced) < len(pcm)`),
`trim_silence` discards the trimmed result and returns the original input
unchanged. -/
theorem trim_silence_overtrim_guard (cls : Bytes → Bool) (w : Wav) (fm : Nat)
    (hw : isWav16kMono16bit w = true)
    (hguard : 10 * (voicedFold cls (split_frames w.pcm w.sr fm)).length < w.pcm.length) :
    trim_silence (liftC cls) w fm = Except.ok w := by
  rw [trim_silence_liftC, if_pos hw, if_pos hguard]

/-- Witness for C6 at a concrete clip: one all-zero 32-byte frame, a
classifier labelling everything non-speech. -/
theorem trim_silence_overtrim_guard_witness :
    isWav16kMono16bit ⟨16000, 1, 2, List.replicate 32 0⟩ = true ∧
    10 * (voicedFold (fun _ => false)
        (split_frames (List.replicate 32 0) 16000 1)).length < 32 ∧
    trim_silence (liftC (fun _ => false)) ⟨16000, 1, 2, List.replicate 32 0⟩ 1
      = Except.ok ⟨16000, 1, 2, List.replicate 32 0⟩ :=
  ⟨rfl, by decide,
    trim_silence_overtrim_guard (fun _ => false) ⟨16000, 1, 2, List.replicate 32 0⟩ 1
      rfl (by decide)⟩

/-! ## C10 — starting tiers outside the fallback dict get no fallback -/

/-- C10: when the starting model name (resolved from the override or the
configuration) is neither "small" nor "base", a failed attempt triggers no
fallback at all: the terminal `RuntimeError` is raised immediately with
that single cause (cause chain of length 1), and the trace shows exactly
one model request. -/
theorem transcribe_bytes_unknown_tier_no_fallback
    (env : AsrEnv) (bytes : Bytes) (hint : Option String) (beam : Nat)
    (ov : Option String) (name tag : String)
    (hb : bytes ≠ [])
    (hname : ov.getD env.defaultModelName = name)
    (h1 : name ≠ "small") (h2 : name ≠ "base")
    (ha : env.attempt name beam = Except.error tag) :
    transcribe_bytes env bytes hint beam ov
      = (Except.error (PyExc.chained "RuntimeError" (PyExc.base tag)),
         [AsrEvent.registryLookup, AsrEvent.modelRequest name beam]) ∧
    (PyExc.chained "RuntimeError" (PyExc.base tag)).chainLength = 1 := by
  constructor
  · have hbe : bytes.isEmpty = false := by
      cases bytes with
      | nil => exact absurd rfl hb
      | cons x xs => rfl
    have hnext : fallbackNext name = none := by
      unfold fallbackNext
      rw [if_neg h1, if_neg h2]
    unfold transcribe_bytes
    rw [if_neg (by simp [hbe])]
    simp only [hname, ha]
    unfold fallbackLoop
    rw [hnext]
  · rfl

/-- Witness for C10: starting tier "tiny" (which has no fallback entry),
with every attempt failing. -/
theorem transcribe_bytes_unknown_tier_no_fallback_witness :
    transcribe_bytes ⟨"small", fun _ _ => Except.error "boom"⟩ [0] (some "ko") 4 (some "tiny")
      = (Except.error (PyExc.chained "RuntimeError" (PyExc.base "boom")),
         [AsrEvent.registryLookup, AsrEvent.modelRequest "tiny" 4]) ∧
    (PyExc.chained "RuntimeError" (PyExc.base "boom")).chainLength = 1 :=
  transcribe_bytes_unknown_tier_no_fallback
    ⟨"small", fun _ _ => Except.error "boom"⟩ [0] (some "ko") 4 (some "tiny") "tiny" "boom"
    (by decide) rfl (by decide) (by decide) rfl

/-! ## Fallback-loop unfolding lemmas -/

theorem fallbackNext_small : fallbackNext "small" = some "base" := rfl

theorem fallbackNext_base : fallbackNext "base" = some "tiny" := rfl

theorem fallbackNext_tiny : fallbackNext "tiny" = none := rfl

theorem fallbackLoop_none (env : AsrEnv) (hint : Option String) (handled : PyExc)
    (beam fuel : Nat) (cur : String) (e : PyExc)
    (hn : fallbackNext cur = none) :
    fallbackLoop env hint handled beam fuel cur e
      = (Except.error (PyExc.chained "RuntimeError" e), []) := by
  unfold fallbackLoop
  rw [hn]

theorem fallbackLoop_step_ok (env : AsrEnv) (hint : Option String) (handled : PyExc)
    (beam fuel : Nat) (cur nxt : String) (e : PyExc) (out : ModelOutput)
    (hn : fallbackNext cur = some nxt)
    (ha : env.attempt nxt (max 1 (beam / 2)) = Except.ok out) :
    fallbackLoop env hint handled beam (fuel + 1) cur e
      = (Except.ok (do_transcribe_with_model out hint),
         [AsrEvent.modelRequest nxt (max 1 (beam / 2))]) := by
  conv_lhs => unfold fallbackLoop
  rw [hn]
  simp only [ha]

theorem fallbackLoop_step_err (env : AsrEnv) (hint : Option String) (handled : PyExc)
    (beam fuel : Nat) (cur nxt : String) (e : PyExc) (tag : String)
    (hn : fallbackNext cur = some nxt)
    (ha : env.attempt nxt (max 1 (beam / 2)) = Except.error tag) :
    fallbackLoop env hint handled beam (fuel + 1) cur e
      = ((fallbackLoop env hint handled beam fuel nxt (PyExc.chained tag handled)).1,
         AsrEvent.modelRequest nxt (max 1 (beam / 2))
           :: (fallbackLoop env hint handled beam fuel nxt (PyExc.chained tag handled)).2) := by
  conv_lhs => unfold fallbackLoop
  rw [hn]
  simp only [ha]

/-! ## C1 — cause chain when every tier fails -/

/-- C1 counterexample: with the default chain starting at "small" and
every attempt failing (tier `n` failing with tag `fail-n`), three tiers
are attempted but the terminal `RuntimeError` carries only two underlying
causes — the "tiny" failure whose implicit context is the "small"
failure.  The "base" failure is absent from the chain, because CPython
restores the outer handler's exception state when the inner `except`
block exits, so each fallback failure's implicit `__context__` is the
first failure, not the previous one.  Hence the cause chain's length is
2, not the chain length 3. -/
theorem transcribe_bytes_cause_chain_counterexample :
    (transcribe_bytes ⟨"small", fun n _ => Except.error ("fail-" ++ n)⟩
        [0] (some "ko") 4 none).1
      = Except.error (PyExc.chained "RuntimeError"
          (PyExc.chained "fail-tiny" (PyExc.base "fail-small"))) ∧
    countModelRequests (transcribe_bytes ⟨"small", fun n _ => Except.error ("fail-" ++ n)⟩
        [0] (some "ko") 4 none).2 = 3 ∧
    (PyExc.chained "RuntimeError"
        (PyExc.chained "fail-tiny" (PyExc.base "fail-small"))).chainLength = 2 ∧
    (2 : Nat) ≠ 3 := by
  refine ⟨rfl, rfl, rfl, by decide⟩

/-- C1 amended: when all three tiers of the chain from "small" fail, the
terminal `RuntimeError` is raised with a cause chain of length exactly 2:
its cause is the last tier's error, whose implicit context is the *first*
tier's error; the middle tier's error is dropped.  The trace still shows
all three attempts. -/
theorem transcribe_bytes_all_tiers_fail
    (env : AsrEnv) (bytes : Bytes) (hint : Option String) (beam : Nat)
    (t1 t2 t3 : String)
    (hb : bytes ≠ [])
    (hd : env.defaultModelName = "small")
    (h1 : env.attempt "small" beam = Except.error t1)
    (h2 : env.attempt "base" (max 1 (beam / 2)) = Except.error t2)
    (h3 : env.attempt "tiny" (max 1 (beam / 2)) = Except.error t3) :
    transcribe_bytes env bytes hint beam none
      = (Except.error (PyExc.chained "RuntimeError"
            (PyExc.chained t3 (PyExc.base t1))),
         [AsrEvent.registryLookup, AsrEvent.modelRequest "small" beam,
          AsrEvent.modelRequest "base" (max 1 (beam / 2)),
          AsrEvent.modelRequest "tiny" (max 1 (beam / 2))]) ∧
    (PyExc.chained "RuntimeError" (PyExc.chained t3 (PyExc.base t1))).chainLength = 2 := by
  have hbe : bytes.isEmpty = false := by
    cases bytes with
    | nil => exact absurd rfl hb
    | cons x xs => rfl
  constructor
  · unfold transcribe_bytes
    rw [if_neg (by simp [hbe])]
    simp only [Option.getD_none, hd, h1]
    rw [fallbackLoop_step_err _ _ _ _ 2 _ _ _ _ fallbackNext_small h2]
    rw [fallbackLoop_step_err _ _ _ _ 1 _ _ _ _ fallbackNext_base h3]
    rw [fallbackLoop_none _ _ _ _ _ _ _ fallbackNext_tiny]
  · rfl

/-- Witness for C1's amended statement at a concrete environment where
every tier fails with a distinct tag. -/
theorem transcribe_bytes_all_tiers_fail_witness :
    transcribe_bytes ⟨"small", fun n _ => Except.error ("fail-" ++ n)⟩ [0] (some "ko") 4 none
      = (Except.error (PyExc.chained "RuntimeError"
            (PyExc.chained "fail-tiny" (PyExc.base "fail-small"))),
         [AsrEvent.registryLookup, AsrEvent.modelRequest "small" 4,
          AsrEvent.modelRequest "base" 2, AsrEvent.modelRequest "tiny" 2]) ∧
    (PyExc.chained "RuntimeError"
        (PyExc.chained "fail-tiny" (PyExc.base "fail-small"))).chainLength = 2 :=
  transcribe_bytes_all_tiers_fail
    ⟨"small", fun n _ => Except.error ("fail-" ++ n)⟩ [0] (some "ko") 4
    "fail-small" "fail-base" "fail-tiny" (by decide) rfl rfl rfl rfl

/-! ## C2 — fallback to "base": beam halved once, but no tier is recorded -/

/-- C2 counterexample: the returned result does not record the tier
actually used.  The result dict assembled by the source has exactly the
keys `text`, `segments`, `lang` and `avg_conf` (the `AsrResult`
structure); there is no `tier_used` field.  Concretely, a run that fell
back to tier "base" and a run whose very first tier "small" succeeded
return *identical* results while their traces show different tiers being
used, so the result cannot record "base" as the tier actually used. -/
theorem transcribe_bytes_result_records_no_tier :
    (transcribe_bytes
        ⟨"small", fun n _ => if n = "base" then Except.ok ⟨[], some "en"⟩
                             else Except.error "boom"⟩
        [0] (some "ko") 4 none).1
      = (transcribe_bytes
        ⟨"small", fun n _ => if n = "small" then Except.ok ⟨[], some "en"⟩
                             else Except.error "boom"⟩
        [0] (some "ko") 4 none).1 ∧
    (transcribe_bytes
        ⟨"small", fun n _ => if n = "base" then Except.ok ⟨[], some "en"⟩
                             else Except.error "boom"⟩
        [0] (some "ko") 4 none).2
      = [AsrEvent.registryLookup, AsrEvent.modelRequest "small" 4,
         AsrEvent.modelRequest "base" 2] ∧
    (transcribe_bytes
        ⟨"small", fun n _ => if n = "small" then Except.ok ⟨[], some "en"⟩
                             else Except.error "boom"⟩
        [0] (some "ko") 4 none).2
      = [AsrEvent.registryLookup, AsrEvent.modelRequest "small" 4] :=
  ⟨rfl, rfl, rfl⟩

/-- C2 amended: for the chain [small, base, tiny], when "small" fails and
"base" succeeds, the orchestrator invokes "base" exactly once, with the
beam size halved exactly once from the original and floored at 1, and
returns exactly the result assembled from "base"'s model output (which
records no tier). -/
theorem transcribe_bytes_fallback_beam_halved_once
    (env : AsrEnv) (bytes : Bytes) (hint : Option String) (beam : Nat)
    (tag : String) (out : ModelOutput)
    (hb : bytes ≠ [])
    (hd : env.defaultModelName = "small")
    (h1 : env.attempt "small" beam = Except.error tag)
    (h2 : env.attempt "base" (max 1 (beam / 2)) = Except.ok out) :
    transcribe_bytes env bytes hint beam none
      = (Except.ok (do_transcribe_with_model out hint),
         [AsrEvent.registryLookup, AsrEvent.modelRequest "small" beam,
          AsrEvent.modelRequest "base" (max 1 (beam / 2))]) := by
  have hbe : bytes.isEmpty = false := by
    cases bytes with
    | nil => exact absurd rfl hb
    | cons x xs => rfl
  unfold transcribe_bytes
  rw [if_neg (by simp [hbe])]
  simp only [Option.getD_none, hd, h1]
  rw [fallbackLoop_step_ok _ _ _ _ 2 _ _ _ _ fallbackNext_small h2]

/-- Witness for C2's amended statement: beam 4 is halved to 2 for the
"base" attempt. -/
theorem transcribe_bytes_fallback_beam_halved_once_witness :
    transcribe_bytes
        ⟨"small", fun n _ => if n = "base" then Except.ok ⟨[], some "en"⟩
                             else Except.error "boom"⟩
        [0] (some "ko") 4 none
      = (Except.ok (do_transcribe_with_model ⟨[], some "en"⟩ (some "ko")),
         [AsrEvent.registryLookup, AsrEvent.modelRequest "small" 4,
          AsrEvent.modelRequest "base" 2]) :=
  transcribe_bytes_fallback_beam_halved_once
    ⟨"small", fun n _ => if n = "base" then Except.ok ⟨[], some "en"⟩
                         else Except.error "boom"⟩
    [0] (some "ko") 4 "boom" ⟨[], some "en"⟩ (by decide) rfl rfl rfl

/-! ## C3 — classifier exceptions propagate out of the VAD functions -/

/-- C3 counterexample: with a classifier that raises, `trim_silence` does
*not* catch the exception and return the original clip — the error
propagates out of the function (the only handler is in the caller,
`transcribe_bytes`); likewise `detect_segments` does not fall back to the
whole-clip segment but propagates the error. -/
theorem classifier_error_propagates_counterexample :
    trim_silence (fun _ => Except.error "ClassifierError")
        ⟨16000, 1, 2, List.replicate 32 0⟩ 1
      = Except.error "ClassifierError" ∧
    trim_silence (fun _ => Except.error "ClassifierError")
        ⟨16000, 1, 2, List.replicate 32 0⟩ 1
      ≠ Except.ok ⟨16000, 1, 2, List.replicate 32 0⟩ ∧
    detect_segments (fun _ => Except.error "ClassifierError")
        ⟨16000, 1, 2, List.replicate 32 0⟩ 1 600
      = Except.error "ClassifierError" := by
  have h1 : trim_silence (fun _ => Except.error "ClassifierError")
      ⟨16000, 1, 2, List.replicate 32 0⟩ 1 = Except.error "ClassifierError" := rfl
  refine ⟨h1, ?_, rfl⟩
  rw [h1]
  exact fun hh => nomatch hh

/-- The classification fold of `trim_silence` raises as soon as the
classifier does: if every frame of a prefix classifies normally and the
next frame raises, the whole fold is that error. -/
theorem foldlM_prefix_error (cls : Classifier) (tag : String) :
    ∀ (pre : List Bytes) (f0 : Bytes) (rest : List Bytes) (a : Bytes),
      (∀ fr ∈ pre, ∃ b, cls fr = Except.ok b) →
      cls f0 = Except.error tag →
      ((pre ++ f0 :: rest).foldlM (fun acc fr => do
          let b ← cls fr
          pure (if b then acc ++ fr else acc)) a : Except String Bytes)
        = Except.error tag := by
  intro pre
  induction pre with
  | nil =>
    intro f0 rest a _ hc
    simp only [List.nil_append, List.foldlM_cons, hc]
    rfl
  | cons x xs ih =>
    intro f0 rest a hok hc
    obtain ⟨b, hb⟩ := hok x (by simp)
    simp only [List.cons_append, List.foldlM_cons, hb, ok_bind]
    exact ih f0 rest _ (fun fr hfr => hok fr (by simp [hfr])) hc

/-- Likewise for the frame classification of `detect_segments`. -/
theorem mapM_prefix_error (cls : Classifier) (tag : String) :
    ∀ (pre : List Bytes) (f0 : Bytes) (rest : List Bytes),
      (∀ fr ∈ pre, ∃ b, cls fr = Except.ok b) →
      cls f0 = Except.error tag →
      ((pre ++ f0 :: rest).mapM cls : Except String (List Bool)) = Except.error tag := by
  intro pre
  induction pre with
  | nil =>
    intro f0 rest _ hc
    simp only [List.nil_append, List.mapM_cons, hc]
    rfl
  | cons x xs ih =>
    intro f0 rest hok hc
    obtain ⟨b, hb⟩ := hok x (by simp)
    simp only [List.cons_append, List.mapM_cons, hb, ok_bind]
    rw [ih f0 rest (fun fr hfr => hok fr (by simp [hfr])) hc]
    rfl

/-- C3 amended: for every precondition-satisfying clip, a classifier
exception raised at *any* frame — the first frame it raises on, every
earlier frame classifying normally — propagates out of both
`trim_silence` and `detect_segments` unchanged: neither function catches
it (the fallback to the original clip happens only in the caller
`transcribe_bytes`, whose VAD preprocessing is wrapped in
`try/except`). -/
theorem classifier_error_propagates
    (cls : Classifier) (w : Wav) (fm ms : Nat) (tag : String)
    (pre : List Bytes) (f0 : Bytes) (rest : List Bytes)
    (hw : isWav16kMono16bit w = true)
    (hfr : split_frames w.pcm w.sr fm = pre ++ f0 :: rest)
    (hok : ∀ fr ∈ pre, ∃ b, cls fr = Except.ok b)
    (hc : cls f0 = Except.error tag) :
    trim_silence cls w fm = Except.error tag ∧
    detect_segments cls w fm ms = Except.error tag := by
  constructor
  · unfold trim_silence
    rw [if_pos hw, hfr]
    simp only [foldlM_prefix_error cls tag pre f0 rest [] hok hc]
    rfl
  · unfold detect_segments detectCore
    rw [if_pos hw, hfr]
    simp only [mapM_prefix_error cls tag pre f0 rest hok hc]
    rfl

/-- Witness for C3's amended statement at a concrete two-frame clip whose
first frame classifies normally and whose second frame raises. -/
theorem classifier_error_propagates_witness :
    isWav16kMono16bit ⟨16000, 1, 2, frame32 1 ++ frame32 0⟩ = true ∧
    split_frames (frame32 1 ++ frame32 0) 16000 1 = [frame32 1] ++ frame32 0 :: [] ∧
    fussyCls (frame32 1) = Except.ok true ∧
    fussyCls (frame32 0) = Except.error "boom" ∧
    trim_silence fussyCls ⟨16000, 1, 2, frame32 1 ++ frame32 0⟩ 1
      = Except.error "boom" ∧
    detect_segments fussyCls ⟨16000, 1, 2, frame32 1 ++ frame32 0⟩ 1 600
      = Except.error "boom" := by
  refine ⟨rfl, by decide, rfl, rfl, ?_, ?_⟩
  · exact (classifier_error_propagates fussyCls ⟨16000, 1, 2, frame32 1 ++ frame32 0⟩
      1 600 "boom" [frame32 1] (frame32 0) [] rfl (by decide)
      (fun fr hfr => ⟨true, by rw [List.mem_singleton.mp hfr]; rfl⟩) rfl).1
  · exact (classifier_error_propagates fussyCls ⟨16000, 1, 2, frame32 1 ++ frame32 0⟩
      1 600 "boom" [frame32 1] (frame32 0) [] rfl (by decide)
      (fun fr hfr => ⟨true, by rw [List.mem_singleton.mp hfr]; rfl⟩) rfl).2

/-! ## Chunking lemmas -/

theorem chunkFramesAux_fuel (fb : Nat) :
    ∀ (fuel1 fuel2 : Nat) (pcm : Bytes), pcm.length < fuel1 → pcm.length < fuel2 →
      chunkFramesAux fb fuel1 pcm = chunkFramesAux fb fuel2 pcm := by
  intro fuel1
  induction fuel1 with
  | zero => intro fuel2 pcm h1 h2; omega
  | succ f ih =>
    intro fuel2 pcm h1 h2
    cases fuel2 with
    | zero => omega
    | succ g =>
      unfold chunkFramesAux
      split
      case isTrue h =>
        have hd : (pcm.drop fb).length = pcm.length - fb := List.length_drop fb pcm
        have hfb : 0 < fb := h.1
        congr 1
        exact ih g (pcm.drop fb) (by omega) (by omega)
      case isFalse h => rfl

theorem chunkFrames_cons (fb : Nat) (pcm : Bytes)
    (h1 : 0 < fb) (h2 : fb ≤ pcm.length) :
    chunkFrames fb pcm = pcm.take fb :: chunkFrames fb (pcm.drop fb) := by
  unfold chunkFrames
  conv_lhs => unfold chunkFramesAux
  rw [if_pos ⟨h1, h2⟩]
  congr 1
  have hd : (pcm.drop fb).length = pcm.length - fb := List.length_drop fb pcm
  exact chunkFramesAux_fuel fb pcm.length ((pcm.drop fb).length + 1) (pcm.drop fb)
    (by omega) (by omega)

theorem chunkFrames_stop (fb : Nat) (pcm : Bytes)
    (h : ¬(0 < fb ∧ fb ≤ pcm.length)) :
    chunkFrames fb pcm = [] := by
  unfold chunkFrames
  conv_lhs => unfold chunkFramesAux
  rw [if_neg h]

/-- When the PCM length is an exact multiple of the frame byte length,
splitting into frames loses nothing: the frames concatenate back to the
original payload. -/
theorem chunkFrames_flatten (fb : Nat) (hfb : 0 < fb) :
    ∀ (k : Nat) (pcm : Bytes), pcm.length = fb * k →
      (chunkFrames fb pcm).flatten = pcm := by
  intro k
  induction k with
  | zero =>
    intro pcm h
    have hnil : pcm = [] := List.length_eq_zero.mp (by omega)
    subst hnil
    rw [chunkFrames_stop fb [] (by simp; omega)]
    rfl
  | succ n ih =>
    intro pcm h
    have hle : fb ≤ pcm.length := by
      rw [h]
      exact Nat.le_mul_of_pos_right fb (by omega)
    rw [chunkFrames_cons fb pcm hfb hle, List.flatten_cons]
    rw [ih (pcm.drop fb) (by rw [List.length_drop, h, Nat.mul_succ]; omega)]
    exact List.take_append_drop fb pcm

theorem voicedFold_all_speech (cls : Bytes → Bool) :
    ∀ (l : List Bytes) (a : Bytes), (∀ fr ∈ l, cls fr = true) →
      l.foldl (fun acc fr => if cls fr then acc ++ fr else acc) a = a ++ l.flatten := by
  intro l
  induction l with
  | nil => intro a _; simp
  | cons x xs ih =>
    intro a hall
    rw [List.foldl_cons, if_pos (hall x (by simp)), List.flatten_cons]
    rw [ih (a ++ x) (fun fr hfr => hall fr (by simp [hfr]))]
    simp

/-! ## C9 — trimming a fully-voiced clip -/

/-- C9 counterexample: a precondition-satisfying clip of 33 PCM bytes at
`frame_ms = 1` (frame byte length 32) whose only complete frame is
classified as speech.  `trim_silence` drops the 1-byte partial tail frame,
so the returned buffer is shorter than the input: 76 bytes against 77 in
the canonical WAV encoding. -/
theorem trim_silence_partial_frame_counterexample :
    trim_silence (liftC (fun _ => true)) ⟨16000, 1, 2, List.replicate 33 1⟩ 1
      = Except.ok ⟨16000, 1, 2, List.replicate 32 1⟩ ∧
    (Wav.mk 16000 1 2 (List.replicate 32 1)).byteLength = 76 ∧
    (Wav.mk 16000 1 2 (List.replicate 33 1)).byteLength = 77 ∧
    (76 : Nat) ≠ 77 := by
  refine ⟨rfl, rfl, rfl, by decide⟩

/-- C9 amended: for a precondition-satisfying clip whose PCM length is an
exact multiple of the frame byte length and whose every frame is
classified as speech, `trim_silence` returns the original clip itself —
in particular a buffer of equal length.  (Without the divisibility
hypothesis the conclusion can fail: for a fully-voiced 33-byte payload at
`frame_ms = 1` the partial tail frame is dropped and the output is
shorter, while a payload shorter than one frame is returned unchanged by
the 10% guard.) -/
theorem trim_silence_fully_voiced
    (cls : Bytes → Bool) (w : Wav) (fm k : Nat)
    (hw : isWav16kMono16bit w = true)
    (hall : ∀ fr ∈ split_frames w.pcm w.sr fm, cls fr = true)
    (hfb : 0 < frameBytesOf w.sr fm)
    (hlen : w.pcm.length = frameBytesOf w.sr fm * k) :
    trim_silence (liftC cls) w fm = Except.ok w := by
  have hv : voicedFold cls (split_frames w.pcm w.sr fm) = w.pcm := by
    unfold voicedFold
    rw [voicedFold_all_speech cls _ [] hall]
    unfold split_frames
    rw [chunkFrames_flatten (frameBytesOf w.sr fm) hfb k w.pcm hlen]
    rfl
  rw [trim_silence_liftC, if_pos hw, hv]
  rw [if_neg (by omega)]
  show Except.ok (writeWavPcm w.pcm w.sr w.ch w.sw) = Except.ok w
  cases w
  rfl

/-- Witness for C9's amended statement: a 32-byte fully-voiced clip at
`frame_ms = 1` is returned unchanged. -/
theorem trim_silence_fully_voiced_witness :
    isWav16kMono16bit ⟨16000, 1, 2, List.replicate 32 1⟩ = true ∧
    (List.replicate 32 1).length = frameBytesOf 16000 1 * 1 ∧
    trim_silence (liftC (fun _ => true)) ⟨16000, 1, 2, List.replicate 32 1⟩ 1
      = Except.ok ⟨16000, 1, 2, List.replicate 32 1⟩ :=
  ⟨rfl, by decide,
    trim_silence_fully_voiced (fun _ => true) ⟨16000, 1, 2, List.replicate 32 1⟩ 1 1
      rfl (fun fr _ => rfl) (by decide) (by decide)⟩

/-! ## C4 — the silence-frame threshold is floor, not ceil -/

set_option maxRecDepth 8000 in
/-- C4 counterexample: with `max_silence_ms = 3` and `frame_ms = 2` the
source threshold `max(1, int(3 / 2)) = 1` differs from the claimed
`ceil(3 / 2) = 2`, and the two thresholds produce observably different
segment lists on the three-frame clip speech/silence/speech: the source
closes the first segment after a single silence frame (two segments),
while the ceil-threshold variant modelled from the spec's words bridges
the gap (one segment). -/
theorem detect_segments_floor_not_ceil_counterexample :
    max 1 (3 / 2) = 1 ∧ max 1 (ceilDiv 3 2) = 2 ∧
    detect_segments (liftC headCls) ⟨16000, 1, 2, spNsSpPcm⟩ 2 3
      = Except.ok [(0, 1/500), (1/250, 3/500)] ∧
    detect_segments_ceilSpec (liftC headCls) ⟨16000, 1, 2, spNsSpPcm⟩ 2 3
      = Except.ok [(0, 3/500)] := by
  have hfr : split_frames spNsSpPcm 16000 2 = [markedFrame 1, markedFrame 0, markedFrame 1] := by
    decide
  have hlab : [markedFrame 1, markedFrame 0, markedFrame 1].map headCls = [true, false, true] := by
    decide
  refine ⟨rfl, rfl, ?_, ?_⟩
  · have s2 : detectStep 2 1 ⟨[], true, 0, 0⟩ 1 false = ⟨[(0, 1/500)], false, 0, 0⟩ := by
      unfold detectStep
      norm_num
    have sl : detectLoop 2 1 0 ⟨[], false, 0, 0⟩ [true, false, true]
        = ⟨[(0, 1/500)], true, 2, 0⟩ := by
      simp only [detectLoop]
      have s1 : detectStep 2 1 ⟨[], false, 0, 0⟩ 0 true = ⟨[], true, 0, 0⟩ := rfl
      rw [s1, s2]
      rfl
    have sf : detectFinish 2 3 ⟨[(0, 1/500)], true, 2, 0⟩
        = ⟨[(0, 1/500), (1/250, 3/500)], true, 2, 0⟩ := by
      unfold detectFinish
      norm_num
    have hmsf : max 1 (3 / 2 : Nat) = 1 := rfl
    unfold detect_segments
    rw [hmsf, detectCore_liftC,
      if_pos (show isWav16kMono16bit ⟨16000, 1, 2, spNsSpPcm⟩ = true from rfl)]
    norm_num [hfr, hlab, sl, sf]
    exact List.cons_ne_nil _ _
  · have tl : detectLoop 2 2 0 ⟨[], false, 0, 0⟩ [true, false, true]
        = ⟨[], true, 0, 0⟩ := by
      simp only [detectLoop]
      rfl
    have tf : detectFinish 2 3 ⟨[], true, 0, 0⟩ = ⟨[(0, 3/500)], true, 0, 0⟩ := by
      unfold detectFinish
      norm_num
    have hmsf : max 1 (ceilDiv 3 2) = 2 := rfl
    unfold detect_segments_ceilSpec
    rw [hmsf, detectCore_liftC,
      if_pos (show isWav16kMono16bit ⟨16000, 1, 2, spNsSpPcm⟩ = true from rfl)]
    norm_num [hfr, hlab, tl, tf]

/-- C4 amended: while in speech, processing a non-speech frame closes the
segment exactly when the consecutive-silence count reaches
`max(1, floor(max_silence_ms / frame_ms))` — integer (floor) division,
not ceiling — and the closed segment's end index is
`current_frame_index − silence_count + 1` (the appended segment converts
both indices to seconds and is dropped when `end ≤ start`); a speech
frame never leaves the in-speech state. -/
theorem detect_segments_transition
    (fm ms : Nat) (st : DetState) (i : Nat)
    (hin : st.in_speech = true) :
    ((detectStep fm (max 1 (ms / fm)) st i false).in_speech = false
        ↔ max 1 (ms / fm) ≤ st.silence_cnt + 1) ∧
    (max 1 (ms / fm) ≤ st.silence_cnt + 1 →
      (detectStep fm (max 1 (ms / fm)) st i false).segs
        = st.segs ++
          (if (st.seg_start : ℚ) * fm / 1000
                < ((i : ℚ) - ((st.silence_cnt + 1 : Nat) : ℚ) + 1) * fm / 1000
           then [((st.seg_start : ℚ) * fm / 1000,
                  ((i : ℚ) - ((st.silence_cnt + 1 : Nat) : ℚ) + 1) * fm / 1000)]
           else [])) ∧
    (detectStep fm (max 1 (ms / fm)) st i true).in_speech = true := by
  unfold detectStep
  rw [hin]
  simp only [Bool.false_eq_true, if_false, if_true, reduceIte]
  constructor
  · split
    case isTrue h => simp [h]
    case isFalse h => simp [hin, h]
  constructor
  · intro h
    rw [if_pos h]
  · trivial

/-- Witness for C4's amended statement with the default parameters
(`frame_ms = 30`, `max_silence_ms = 600`, threshold 20): a 20th
consecutive silence frame closes the segment, a 19th does not. -/
theorem detect_segments_transition_witness :
    (detectStep 30 (max 1 (600 / 30)) ⟨[], true, 0, 19⟩ 25 false).in_speech = false ∧
    (detectStep 30 (max 1 (600 / 30)) ⟨[], true, 0, 18⟩ 25 false).in_speech = true := by
  constructor
  · exact (detect_segments_transition 30 600 ⟨[], true, 0, 19⟩ 25 rfl).1.mpr (by decide)
  · have h := (detect_segments_transition 30 600 ⟨[], true, 0, 18⟩ 25 rfl).1
    cases hx : (detectStep 30 (max 1 (600 / 30)) ⟨[], true, 0, 18⟩ 25 false).in_speech
    · exact absurd (h.mp hx) (by decide)
    · rfl

/-! ## C5 — well-formedness of the produced segment list -/

theorem SegsLE_nil (b : ℚ) : SegsLE b [] := fun p hp => absurd hp (List.not_mem_nil p)

theorem SegsLE_mono {b b2 : ℚ} {l : List (ℚ × ℚ)} (h : b ≤ b2) (hl : SegsLE b l) :
    SegsLE b2 l := fun p hp => le_trans (hl p hp) h

theorem SegsLE_append {b : ℚ} {l : List (ℚ × ℚ)} (hl : SegsLE b l) {s e : ℚ}
    (he : e ≤ b) : SegsLE b (l ++ [(s, e)]) := by
  intro p hp
  rcases List.mem_append.mp hp with hp2 | hp2
  · exact hl p hp2
  · have : p = (s, e) := List.mem_singleton.mp hp2
    rw [this]
    exact he

theorem segsSorted_append : ∀ (l : List (ℚ × ℚ)) (s e b : ℚ),
    segsSorted l = true → SegsLE b l → b ≤ s → s < e →
    segsSorted (l ++ [(s, e)]) = true := by
  intro l
  induction l with
  | nil =>
    intro s e b _ _ _ hse
    simp [segsSorted, hse]
  | cons p t ih =>
    intro s e b hl hb hbs hse
    cases t with
    | nil =>
      simp only [segsSorted, decide_eq_true_eq] at hl
      simp only [List.cons_append, List.nil_append, segsSorted, Bool.and_eq_true,
        decide_eq_true_eq]
      exact ⟨⟨hl, le_trans (hb p (by simp)) hbs⟩, hse⟩
    | cons q t2 =>
      simp only [List.cons_append] at ih ⊢
      simp only [segsSorted, Bool.and_eq_true, decide_eq_true_eq] at hl ⊢
      obtain ⟨⟨h1, h2⟩, h3⟩ := hl
      refine ⟨⟨h1, h2⟩, ?_⟩
      have hb2 : SegsLE b (q :: t2) := fun r hr => hb r (by simp [hr])
      have := ih s e b h3 hb2 hbs hse
      simpa [List.cons_append] using this

/-! Case-analysis lemmas for `detectStep`. -/

theorem detectStep_speech_in (fm msf i : Nat) (st : DetState)
    (h : st.in_speech = true) :
    detectStep fm msf st i true = { st with silence_cnt := 0 } := by
  unfold detectStep
  rw [h]
  simp only [reduceIte]

theorem detectStep_speech_out (fm msf i : Nat) (st : DetState)
    (h : st.in_speech = false) :
    detectStep fm msf st i true
      = { st with in_speech := true, seg_start := i, silence_cnt := 0 } := by
  unfold detectStep
  rw [h]
  simp only [Bool.false_eq_true, reduceIte]

theorem detectStep_silence_out (fm msf i : Nat) (st : DetState)
    (h : st.in_speech = false) :
    detectStep fm msf st i false = st := by
  unfold detectStep
  rw [h]
  simp only [Bool.false_eq_true, reduceIte]

theorem detectStep_silence_keep (fm msf i : Nat) (st : DetState)
    (h : st.in_speech = true) (hth : ¬ msf ≤ st.silence_cnt + 1) :
    detectStep fm msf st i false = { st with silence_cnt := st.silence_cnt + 1 } := by
  unfold detectStep
  rw [h]
  simp only [Bool.false_eq_true, if_false, if_true, reduceIte, if_neg hth]

theorem detectStep_close (fm msf i : Nat) (st : DetState)
    (h : st.in_speech = true) (hth : msf ≤ st.silence_cnt + 1) :
    detectStep fm msf st i false
      = { segs := st.segs ++
            (if (st.seg_start : ℚ) * fm / 1000
                < ((i : ℚ) - ((st.silence_cnt + 1 : Nat) : ℚ) + 1) * fm / 1000
             then [((st.seg_start : ℚ) * fm / 1000,
                    ((i : ℚ) - ((st.silence_cnt + 1 : Nat) : ℚ) + 1) * fm / 1000)]
             else []),
          in_speech := false, seg_start := st.seg_start, silence_cnt := 0 } := by
  unfold detectStep
  rw [h]
  simp only [Bool.false_eq_true, if_false, if_true, reduceIte, if_pos hth]

/-- One step of the detection loop preserves the invariant. -/
theorem DetInv_step (fm msf : Nat) (i : Nat) (b : Bool) (st : DetState)
    (h : DetInv fm i st) : DetInv fm (i + 1) (detectStep fm msf st i b) := by
  obtain ⟨hs, hin, hout⟩ := h
  have tmono : ∀ a c : ℚ, a ≤ c → a * fm / 1000 ≤ c * fm / 1000 := fun a c hac =>
    (div_le_div_right (by norm_num : (0:ℚ) < 1000)).mpr
      (mul_le_mul_of_nonneg_right hac (Nat.cast_nonneg fm))
  cases b with
  | true =>
    cases hsp : st.in_speech with
    | true =>
      rw [detectStep_speech_in fm msf i st hsp]
      refine ⟨hs, ?_, ?_⟩
      · intro _
        obtain ⟨hle, hlt⟩ := hin hsp
        exact ⟨hle, show st.seg_start < i + 1 by omega⟩
      · intro hcon
        simp [hsp] at hcon
    | false =>
      rw [detectStep_speech_out fm msf i st hsp]
      refine ⟨hs, ?_, ?_⟩
      · intro _
        exact ⟨hout hsp, show i < i + 1 by omega⟩
      · intro hcon
        simp at hcon
  | false =>
    cases hsp : st.in_speech with
    | false =>
      rw [detectStep_silence_out fm msf i st hsp]
      refine ⟨hs, ?_, ?_⟩
      · intro hcon
        rw [hsp] at hcon
        exact absurd hcon (by simp)
      · intro _
        refine SegsLE_mono (tmono _ _ ?_) (hout hsp)
        have hc : ((i : Nat) : ℚ) ≤ ((i + 1 : Nat) : ℚ) := by
          exact_mod_cast Nat.le_succ i
        push_cast at hc ⊢
        linarith
    | true =>
      by_cases hth : msf ≤ st.silence_cnt + 1
      · rw [detectStep_close fm msf i st hsp hth]
        obtain ⟨hle, hlt⟩ := hin hsp
        have hstart : ((st.seg_start : Nat) : ℚ) ≤ ((i + 1 : Nat) : ℚ) := by
          exact_mod_cast Nat.le_of_lt (by omega : st.seg_start < i + 1)
        refine ⟨?_, ?_, ?_⟩
        · by_cases hcond : (st.seg_start : ℚ) * fm / 1000
              < ((i : ℚ) - ((st.silence_cnt + 1 : Nat) : ℚ) + 1) * fm / 1000
          · rw [if_pos hcond]
            exact segsSorted_append st.segs _ _ _ hs hle (le_refl _) hcond
          · rw [if_neg hcond]
            simpa using hs
        · intro hcon
          simp at hcon
        · intro _
          by_cases hcond : (st.seg_start : ℚ) * fm / 1000
              < ((i : ℚ) - ((st.silence_cnt + 1 : Nat) : ℚ) + 1) * fm / 1000
          · rw [if_pos hcond]
            refine SegsLE_append ?_ ?_
            · refine SegsLE_mono (tmono _ _ ?_) hle
              push_cast at hstart ⊢
              linarith
            · apply tmono
              have hnn : (0:ℚ) ≤ ((st.silence_cnt + 1 : Nat) : ℚ) := Nat.cast_nonneg _
              push_cast at hnn ⊢
              linarith
          · rw [if_neg hcond]
            rw [List.append_nil]
            refine SegsLE_mono (tmono _ _ ?_) hle
            push_cast at hstart ⊢
            linarith
      · rw [detectStep_silence_keep fm msf i st hsp hth]
        obtain ⟨hle, hlt⟩ := hin hsp
        refine ⟨hs, ?_, ?_⟩
        · intro _
          exact ⟨hle, show st.seg_start < i + 1 by omega⟩
        · intro hcon
          simp [hsp] at hcon

/-- The whole detection loop preserves the invariant. -/
theorem DetInv_loop (fm msf : Nat) :
    ∀ (labels : List Bool) (i : Nat) (st : DetState),
      DetInv fm i st → DetInv fm (i + labels.length) (detectLoop fm msf i st labels) := by
  intro labels
  induction labels with
  | nil =>
    intro i st h
    simpa [detectLoop] using h
  | cons b rest ih =>
    intro i st h
    have h3 := ih (i + 1) (detectStep fm msf st i b) (DetInv_step fm msf i b st h)
    simp only [detectLoop, List.length_cons]
    have heq : i + (rest.length + 1) = (i + 1) + rest.length := by omega
    rw [heq]
    exact h3

/-- The tail handling preserves well-formedness of the segment list. -/
theorem DetInv_finish (fm n : Nat) (st : DetState) (h : DetInv fm n st) :
    segsSorted (detectFinish fm n st).segs = true := by
  obtain ⟨hs, hin, hout⟩ := h
  cases hsp : st.in_speech with
  | false =>
    unfold detectFinish
    rw [if_neg (by simp [hsp])]
    exact hs
  | true =>
    obtain ⟨hle, hlt⟩ := hin hsp
    simp only [detectFinish]
    rw [if_pos hsp]
    by_cases hcond : (st.seg_start : ℚ) * fm / 1000 < (n : ℚ) * fm / 1000
    · rw [if_pos hcond]
      exact segsSorted_append st.segs _ _ _ hs hle (le_refl _) hcond
    · rw [if_neg hcond]
      simpa using hs

/-- C5 counterexample: a precondition-satisfying clip with an empty PCM
payload.  The loop yields no segment, so `detect_segments` falls back to
the whole-clip segment `(0, len(pcm)/2/sr) = (0, 0)` — a zero-length
segment, violating the claimed invariant `end > start`. -/
theorem detect_segments_zero_length_counterexample :
    detect_segments (liftC (fun _ => true)) ⟨16000, 1, 2, []⟩ 30 600
      = Except.ok [(0, 0)] ∧
    segsSorted [((0 : ℚ), (0 : ℚ))] = false := by
  constructor
  · have hfr : split_frames ([] : Bytes) 16000 30 = [] := rfl
    unfold detect_segments
    rw [detectCore_liftC,
      if_pos (show isWav16kMono16bit ⟨16000, 1, 2, []⟩ = true from rfl)]
    norm_num [hfr, detectLoop, detectFinish]
  · simp [segsSorted]

/-- C5 amended: for every clip satisfying the VAD precondition whose PCM
payload is nonempty (and positive `frame_ms`, as the source requires),
the list returned by `detect_segments` is non-overlapping, sorted
ascending by start, and every segment has `end > start`.  The empty-PCM
clip is the only precondition-satisfying input producing a zero-length
segment (via the whole-clip fallback). -/
theorem detect_segments_sorted
    (cls : Bytes → Bool) (w : Wav) (fm ms : Nat) (segs : List (ℚ × ℚ))
    (hw : isWav16kMono16bit w = true)
    (hfm : 0 < fm) (hpcm : w.pcm ≠ [])
    (h : detect_segments (liftC cls) w fm ms = Except.ok segs) :
    segsSorted segs = true := by
  have hsr : w.sr = 16000 := by
    have hw2 := hw
    simp only [isWav16kMono16bit, Bool.and_eq_true, beq_iff_eq] at hw2
    exact hw2.1.2
  unfold detect_segments at h
  rw [detectCore_liftC, if_pos hw] at h
  set labels := (split_frames w.pcm w.sr fm).map cls with hlab
  set stf := detectFinish fm (split_frames w.pcm w.sr fm).length
      (detectLoop fm (max 1 (ms / fm)) 0 ⟨[], false, 0, 0⟩ labels) with hstdef
  have hinit : DetInv fm 0 ⟨[], false, 0, 0⟩ := by
    refine ⟨rfl, ?_, ?_⟩
    · intro hcon
      simp at hcon
    · intro _
      exact SegsLE_nil _
  have hloop := DetInv_loop fm (max 1 (ms / fm)) labels 0 ⟨[], false, 0, 0⟩ hinit
  have hlen : labels.length = (split_frames w.pcm w.sr fm).length := by
    rw [hlab, List.length_map]
  have hinv : DetInv fm (split_frames w.pcm w.sr fm).length
      (detectLoop fm (max 1 (ms / fm)) 0 ⟨[], false, 0, 0⟩ labels) := by
    have := hloop
    rw [Nat.zero_add, hlen] at this
    exact this
  have hsorted : segsSorted stf.segs = true := by
    rw [hstdef]
    exact DetInv_finish fm _ _ hinv
  by_cases hseq : stf.segs = []
  · rw [if_pos hseq] at h
    have hsegs : segs = [(0, ((w.pcm.length : ℚ) / 2) / (w.sr : ℚ))] := by
      simp only [Except.ok.injEq] at h
      exact h.symm
    have hlenpos : 0 < w.pcm.length := List.length_pos.mpr hpcm
    have hd : (0:ℚ) < ((w.pcm.length : ℚ) / 2) / (w.sr : ℚ) := by
      rw [hsr]
      have hnum : (0:ℚ) < (w.pcm.length : ℚ) := by exact_mod_cast hlenpos
      positivity
    rw [hsegs]
    simp only [segsSorted, decide_eq_true_eq]
    exact hd
  · rw [if_neg hseq] at h
    have hsegs : segs = stf.segs := by
      simp only [Except.ok.injEq] at h
      exact h.symm
    rw [hsegs]
    exact hsorted

/-- Witness for C5's amended statement at a concrete one-frame all-speech
clip: the returned list is the single segment `(0, 1/1000)` and it is
well-formed. -/
theorem detect_segments_sorted_witness :
    detect_segments (liftC (fun _ => true)) ⟨16000, 1, 2, List.replicate 32 1⟩ 1 600
      = Except.ok [(0, 1/1000)] ∧
    segsSorted [((0 : ℚ), (1 : ℚ)/1000)] = true := by
  have hfr : split_frames (List.replicate 32 1) 16000 1 = [List.replicate 32 1] := by
    decide
  have hloop : detectLoop 1 600 0 ⟨[], false, 0, 0⟩ [true]
      = ⟨[], true, 0, 0⟩ := by
    simp only [detectLoop]
    rfl
  have hfin : detectFinish 1 1 ⟨[], true, 0, 0⟩ = ⟨[(0, 1/1000)], true, 0, 0⟩ := by
    unfold detectFinish
    norm_num
  have heval : detect_segments (liftC (fun _ => true)) ⟨16000, 1, 2, List.replicate 32 1⟩ 1 600
      = Except.ok [(0, 1/1000)] := by
    unfold detect_segments
    rw [detectCore_liftC,
      if_pos (show isWav16kMono16bit ⟨16000, 1, 2, List.replicate 32 1⟩ = true from rfl)]
    norm_num [hfr, hloop, hfin]
  exact ⟨heval,
    detect_segments_sorted (fun _ => true) ⟨16000, 1, 2, List.replicate 32 1⟩ 1 600
      [(0, 1/1000)] rfl (by decide) (by decide) heval⟩

end ExpoAssistant
